import Mathlib

/-!
Shallow embedding of the team-wallet inference heuristic of
`src/heuristics.py` (functions `normalize_address` and
`infer_team_wallets_from_transfers`), together with theorems settling the
frozen claims about it.

Modelling conventions:
* A pandas row of the transfer ledger becomes a `TransferRecord`; the
  `block_signed_at` ordering key is modelled as a `Nat` (only its linear
  order matters to the code), `tx_hash` as a `String`, the `from` / `to`
  address columns as `Option String` (`none` = null/NaN cell) and
  `value_raw` as `Option Int`.
* Python's `str.lower()` is modelled by `pyLower`, per-character
  lowercasing of the underlying character list (addresses are ASCII hex
  strings, on which this agrees with Python).
* Python truthiness of an optional string (`if creator_addr:`) is modelled
  by `pyTruthyOpt`: `None` and the empty string are falsy.
* `pandas.Series.map` applies the mapped function to null cells as well,
  so `df["to"].map(normalize_address)` turns a null `to` into `""`; the
  subsequent `.dropna()` on the already-normalized `to_n` column therefore
  drops nothing and is the identity, and is embedded as such.
* `DataFrame.sort_values("block_signed_at")` uses pandas' default
  `kind="quicksort"`, which sorts ascending by the key but does not
  guarantee any particular order among tied rows.  To keep the embedding
  an executable function, one concrete deterministic sort
  (`List.insertionSort`) stands in for it; no theorem below depends on
  the order chosen among records tying on `block_signed_at`.
-/

/-- Lowercasing of a string, modelling Python's `str.lower()` by mapping
`Char.toLower` over the character list. -/
def pyLower (s : String) : String :=
  ⟨s.data.map Char.toLower⟩

/-- Embedding of `normalize_address` (src/heuristics.py line 8-9):
`(addr or "").lower()`. A null (or empty) input yields `""`; any other
string is lowercased. -/
def normalize_address (addr : Option String) : String :=
  pyLower (addr.getD "")

/-- One row of the transfer ledger, with exactly the five columns the
heuristic reads, in the column order of the evidence table. -/
structure TransferRecord where
  block_signed_at : Nat
  tx_hash : String
  «from» : Option String
  «to» : Option String
  value_raw : Option Int
deriving DecidableEq

/-- The burn/zero sentinel address discarded on line 36 of the source. -/
def zeroAddress : String := "0x0000000000000000000000000000000000000000"

/-- A row of the working copy `df` after lines 20-21 added the normalized
address columns `from_n` and `to_n`. -/
structure NormalizedRecord where
  block_signed_at : Nat
  tx_hash : String
  «from» : Option String
  «to» : Option String
  value_raw : Option Int
  from_n : String
  to_n : String
deriving DecidableEq

/-- Lines 20-21 of the source: derive the `from_n` / `to_n` columns by
mapping `normalize_address` over the raw address columns. -/
def addNormalized (r : TransferRecord) : NormalizedRecord :=
  ⟨r.block_signed_at, r.tx_hash, r.«from», r.«to», r.value_raw,
    normalize_address r.«from», normalize_address r.«to»⟩

/-- Line 40's column selection
`out[["block_signed_at","tx_hash","from","to","value_raw"]]`: keep exactly
the five original columns, in that order, dropping `from_n` / `to_n`. -/
def selectCols (r : NormalizedRecord) : TransferRecord :=
  ⟨r.block_signed_at, r.tx_hash, r.«from», r.«to», r.value_raw⟩

/-- Python truthiness of an optional string: `None` and `""` are falsy,
every other string is truthy. -/
def pyTruthyOpt : Option String → Bool
  | none => false
  | some s => s != ""

/-- Embedding of `df.loc[df["from_n"] == a, "to_n"].dropna().tolist()`
on the pair list of the `from_n` / `to_n` columns: select the rows whose
`from_n` equals `a` and project their `to_n`.  The `.dropna()` of the
source is the identity here because the normalized column contains no
nulls (see the module comment). -/
def matchesOut (pairs : List (String × String)) (a : String) : List String :=
  (pairs.filter (fun p => p.1 == a)).map (fun p => p.2)

/-- Lines 26-36 of the source, on the `from_n` / `to_n` column pairs:
start from the empty set, add the creator matches when `creator_n` is
truthy, add the token-contract matches, then discard the zero address. -/
def teamLikePairs (pairs : List (String × String)) (token_n : String)
    (creator_n : Option String) : Finset String :=
  let creatorContrib : List String :=
    match creator_n with
    | some c => if c != "" then matchesOut pairs c else []
    | none => []
  ((creatorContrib ++ matchesOut pairs token_n).toFinset).erase zeroAddress

/-- Comparison used by the evidence-table sort (line 40,
`sort_values("block_signed_at")`): ascending `block_signed_at`. -/
def blockLE (a b : TransferRecord) : Prop :=
  a.block_signed_at ≤ b.block_signed_at

instance : DecidableRel blockLE := fun a b =>
  Nat.decLe a.block_signed_at b.block_signed_at

instance : IsTotal TransferRecord blockLE := ⟨fun a b =>
  Nat.le_total a.block_signed_at b.block_signed_at⟩

instance : IsTrans TransferRecord blockLE := ⟨fun _ _ _ => Nat.le_trans⟩

/-- Embedding of `infer_team_wallets_from_transfers`
(src/heuristics.py lines 12-42).  Returns the team address set and the
evidence table. -/
def infer_team_wallets_from_transfers (transfers_df : List TransferRecord)
    (token_contract : String) (creator_addr : Option String) :
    Finset String × List TransferRecord :=
  let df := transfers_df.map addNormalized
  let creator_n : Option String :=
    if pyTruthyOpt creator_addr then some (normalize_address creator_addr) else none
  let token_n : String := normalize_address (some token_contract)
  let team_like : Finset String :=
    teamLikePairs (df.map (fun r => (r.from_n, r.to_n))) token_n creator_n
  let out : List TransferRecord :=
    (df.filter (fun r => decide (r.to_n ∈ team_like))).map selectCols
  (team_like, out.insertionSort blockLE)

/-- Scenario A of the spec, checked on the embedding. -/
example :
    infer_team_wallets_from_transfers
      [⟨1, "t1", some "0xC", some "0xW1", some 100⟩] "0xT" (some "0xC")
      = ({"0xw1"}, [⟨1, "t1", some "0xC", some "0xW1", some 100⟩]) := by
  decide

/-- First component of the result, unfolded. -/
theorem infer_fst (L : List TransferRecord) (tok : String) (cr : Option String) :
    (infer_team_wallets_from_transfers L tok cr).1
      = teamLikePairs ((L.map addNormalized).map (fun r => (r.from_n, r.to_n)))
          (normalize_address (some tok))
          (if pyTruthyOpt cr then some (normalize_address cr) else none) :=
  rfl

/-- The `from_n` / `to_n` column pair of the working copy, expressed on the
original ledger. -/
theorem pairs_of_map (L : List TransferRecord) :
    (L.map addNormalized).map (fun r => (r.from_n, r.to_n))
      = L.map (fun r => (normalize_address r.«from», normalize_address r.«to»)) := by
  simp only [List.map_map]
  rfl

/-- Selecting the `to_n` column of the rows whose `from_n` matches `a`,
expressed on the original ledger. -/
theorem matchesOut_pairs (L : List TransferRecord) (a : String) :
    matchesOut (L.map (fun r => (normalize_address r.«from», normalize_address r.«to»))) a
      = (L.filter (fun r => normalize_address r.«from» == a)).map
          (fun r => normalize_address r.«to») := by
  induction L with
  | nil => rfl
  | cons x l ih =>
    simp only [matchesOut, List.map_cons, List.filter_cons] at *
    by_cases h : normalize_address x.«from» == a
    · simpa [h] using ih
    · simpa [h] using ih

/-- Spec-side definition for claim C1, following the spec's words: "the set
of (normalized, non-null) `to` addresses of records whose `from` equals the
token contract address (case-insensitive)".  Note it keeps the all-zero
address and drops records with a null `to`. -/
def contractRuleSetSpec (L : List TransferRecord) (token_contract : String) :
    Finset String :=
  ((L.filter (fun r => r.«to».isSome
      && (normalize_address r.«from» == normalize_address (some token_contract)))).map
    (fun r => normalize_address r.«to»)).toFinset

/-- C1 (counterexample): with a null creator, on a ledger with a
contract-to-zero transfer and a contract-to-null transfer the returned
Team Address Set is {""} while the set described by the claim is the
all-zero singleton, so the two differ. -/
theorem contract_rule_set_counterexample :
    (infer_team_wallets_from_transfers
        [⟨1, "t1", some "0xT", some "0x0000000000000000000000000000000000000000", some 1⟩,
         ⟨2, "t2", some "0xT", none, some 2⟩] "0xT" none).1
      ≠ contractRuleSetSpec
          [⟨1, "t1", some "0xT", some "0x0000000000000000000000000000000000000000", some 1⟩,
           ⟨2, "t2", some "0xT", none, some 2⟩] "0xT" := by
  decide

/-- C1 (amended): when the creator address is null, the Team Address Set
equals exactly the set of normalized `to` values of the records whose
normalized `from` equals the normalized token contract address — a null
`to` contributing the empty string — with the all-zero address removed. -/
theorem contract_rule_set_amended (L : List TransferRecord) (tok : String) :
    (infer_team_wallets_from_transfers L tok none).1
      = (((L.filter (fun r =>
              normalize_address r.«from» == normalize_address (some tok))).map
            (fun r => normalize_address r.«to»)).toFinset).erase zeroAddress := by
  rw [infer_fst, pairs_of_map]
  show teamLikePairs _ _ none = _
  unfold teamLikePairs
  rw [matchesOut_pairs]
  rfl

/-- C3 (code evaluated at the failing input): a record whose `to` is null,
sent from the creator, contributes the empty string to the Team Address Set
and itself appears in the Evidence Table — contradicting the claim that
such records never contribute and never appear. -/
theorem null_to_contributes :
    infer_team_wallets_from_transfers
        [⟨1, "t1", some "0xC", none, some 1⟩] "0xT" (some "0xC")
      = ({""}, [⟨1, "t1", some "0xC", none, some 1⟩]) := by
  decide

/-- C4: the Team Address Set never contains the all-zero burn address, for
every ledger, token contract address and creator address. -/
theorem zero_address_never_in_team_set (L : List TransferRecord) (tok : String)
    (cr : Option String) :
    zeroAddress ∉ (infer_team_wallets_from_transfers L tok cr).1 := by
  rw [infer_fst]
  unfold teamLikePairs
  exact Finset.not_mem_erase _ _

/-- C6: `normalize_address` maps a null/absent input to the empty string
(it never fails), and maps any non-null string to exactly its lowercased
form, with no other transformation. -/
theorem normalize_address_spec :
    normalize_address none = "" ∧ ∀ s : String, normalize_address (some s) = pyLower s :=
  ⟨rfl, fun _ => rfl⟩

/-- C7: the inference is deterministic — on equal inputs it returns an
identical Team Address Set and an identical Evidence Table (the embedding
is a pure function, and the internal set is used only for membership
tests, never for iteration order). -/
theorem infer_deterministic (L : List TransferRecord) (tok : String)
    (cr : Option String) :
    infer_team_wallets_from_transfers L tok cr
      = infer_team_wallets_from_transfers L tok cr :=
  rfl

/-- C9: an empty ledger yields an empty Team Address Set and an empty
Evidence Table, for every token contract address and every creator address
(present or null), and no error is raised (the embedding is total). -/
theorem infer_empty_ledger (tok : String) (cr : Option String) :
    infer_team_wallets_from_transfers [] tok cr = (∅, []) := by
  cases cr with
  | none => rfl
  | some s =>
    unfold infer_team_wallets_from_transfers teamLikePairs matchesOut
    by_cases h : pyTruthyOpt (some s)
    · simp [h, List.insertionSort]
    · simp [h, List.insertionSort]

/-- C10: an empty-string creator address is falsy in Python, so the
creator-based rule is skipped exactly as for a null creator: the whole
result coincides with the null-creator result (in particular no record
with an empty normalized `from` is matched by the creator rule). -/
theorem empty_creator_same_as_none (L : List TransferRecord) (tok : String) :
    infer_team_wallets_from_transfers L tok (some "")
      = infer_team_wallets_from_transfers L tok none :=
  rfl

/-- Two optional strings that differ only in letter case: both null, or
both present with the same lowercased form. -/
def optCaseVariant (o o' : Option String) : Prop :=
  o.map pyLower = o'.map pyLower

instance (o o' : Option String) : Decidable (optCaseVariant o o') := by
  unfold optCaseVariant
  exact inferInstance

/-- Two transfer records that differ at most in the letter case of their
`from` / `to` address fields. -/
def caseVariantRec (r r' : TransferRecord) : Prop :=
  r.block_signed_at = r'.block_signed_at ∧ r.tx_hash = r'.tx_hash
    ∧ optCaseVariant r.«from» r'.«from» ∧ optCaseVariant r.«to» r'.«to»
    ∧ r.value_raw = r'.value_raw

instance (r r' : TransferRecord) : Decidable (caseVariantRec r r') := by
  unfold caseVariantRec
  exact inferInstance

/-- Lowercasing a string yields the empty string only for the empty
string. -/
theorem pyLower_eq_empty_iff (s : String) : pyLower s = "" ↔ s = "" := by
  constructor
  · intro h
    have hd : s.data.map Char.toLower = ([] : List Char) := congrArg String.data h
    have hnil : s.data = [] := List.map_eq_nil_iff.mp hd
    cases s with
    | mk d => cases hnil; rfl
  · intro h
    subst h
    rfl

/-- Case variants normalize identically. -/
theorem normalize_of_optCaseVariant {o o' : Option String}
    (h : optCaseVariant o o') : normalize_address o = normalize_address o' := by
  cases o with
  | none =>
    cases o' with
    | none => rfl
    | some t => simp [optCaseVariant] at h
  | some s =>
    cases o' with
    | none => simp [optCaseVariant] at h
    | some t =>
      simp only [optCaseVariant, Option.map_some'] at h
      exact Option.some.inj h

/-- Case variants have the same Python truthiness. -/
theorem pyTruthy_of_optCaseVariant {o o' : Option String}
    (h : optCaseVariant o o') : pyTruthyOpt o = pyTruthyOpt o' := by
  cases o with
  | none =>
    cases o' with
    | none => rfl
    | some t => simp [optCaseVariant] at h
  | some s =>
    cases o' with
    | none => simp [optCaseVariant] at h
    | some t =>
      simp only [optCaseVariant, Option.map_some'] at h
      have h' : pyLower s = pyLower t := Option.some.inj h
      have hiff : s = "" ↔ t = "" := by
        rw [← pyLower_eq_empty_iff s, ← pyLower_eq_empty_iff t, h']
      by_cases hs : s = ""
      · have ht := hiff.mp hs
        subst hs
        subst ht
        rfl
      · have ht : ¬ t = "" := fun hh => hs (hiff.mpr hh)
        have h1 : (s != "") = true := by simp [hs]
        have h2 : (t != "") = true := by simp [ht]
        show (s != "") = (t != "")
        rw [h1, h2]

/-- Pointwise case variants project to the same normalized address
pairs. -/
theorem projPairs_of_forall2 {L L' : List TransferRecord}
    (h : List.Forall₂ caseVariantRec L L') :
    L.map (fun r => (normalize_address r.«from», normalize_address r.«to»))
      = L'.map (fun r => (normalize_address r.«from», normalize_address r.«to»)) := by
  induction h with
  | nil => rfl
  | cons hr _ ih =>
    obtain ⟨-, -, hf, ht, -⟩ := hr
    simp [ih, normalize_of_optCaseVariant hf, normalize_of_optCaseVariant ht]

/-- C5: address comparison is case-insensitive — replacing the ledger, the
token contract address and the creator address by versions that differ
only in letter case leaves the returned Team Address Set unchanged. -/
theorem team_set_case_insensitive (L L' : List TransferRecord)
    (tok tok' : String) (cr cr' : Option String)
    (hL : List.Forall₂ caseVariantRec L L')
    (htok : pyLower tok = pyLower tok')
    (hcr : optCaseVariant cr cr') :
    (infer_team_wallets_from_transfers L tok cr).1
      = (infer_team_wallets_from_transfers L' tok' cr').1 := by
  have htokn : normalize_address (some tok) = normalize_address (some tok') := htok
  rw [infer_fst, infer_fst, pairs_of_map, pairs_of_map,
    projPairs_of_forall2 hL, pyTruthy_of_optCaseVariant hcr,
    normalize_of_optCaseVariant hcr, htokn]

/-- C5 witness: a mixed-case ledger, token and creator against their
lowercased variants; in particular `from = "0xABC"` matches the creator
address `"0xabc"`. -/
theorem team_set_case_insensitive_witness :
    (infer_team_wallets_from_transfers
        [⟨1, "t", some "0xABC", some "0xW1", some 5⟩] "0xT" (some "0xabc")).1
      = (infer_team_wallets_from_transfers
          [⟨1, "t", some "0xabc", some "0xw1", some 5⟩] "0xt" (some "0xABC")).1 :=
  team_set_case_insensitive _ _ _ _ _ _
    (List.Forall₂.cons (by decide) List.Forall₂.nil) (by decide) (by decide)

/-- A pandas dataframe object on the heap: either a raw transfer ledger as
passed by a caller, or the working copy after the two normalized address
columns were added. -/
inductive PandasObject where
  | raw (rows : List TransferRecord)
  | withNormCols (rows : List NormalizedRecord)
deriving DecidableEq

/-- Heap of dataframe objects; references are list indices, and allocation
appends at the end. -/
def Heap : Type := List PandasObject

/-- State-passing embedding of `infer_team_wallets_from_transfers` at the
granularity of its heap effects, to settle the frame claim.  Line 19
(`df = transfers_df.copy()`) allocates a fresh object holding the same
rows; lines 20-21 (the two column assignments) mutate that fresh object in
place, collapsed here into one write installing both normalized columns;
lines 23-42 only read `df`, build the set, and allocate the separate
`out` object (line 39 `.copy()`) that is returned — they are embedded by
the functional model on the rows.  No statement writes to the caller's
object. -/
def inferTeamWalletsHeap (h : List PandasObject) (transfersRef : Nat)
    (token_contract : String) (creator_addr : Option String) :
    List PandasObject × Finset String × List TransferRecord :=
  match h[transfersRef]? with
  | some (PandasObject.raw rows) =>
      let dfRef := h.length
      let h1 := h ++ [PandasObject.raw rows]
      let h2 := h1.set dfRef (PandasObject.withNormCols (rows.map addNormalized))
      (h2, infer_team_wallets_from_transfers rows token_contract creator_addr)
  | _ => (h, ∅, [])

/-- C8: the call does not mutate its input ledger — after the call, the
caller's dataframe object still holds exactly the records it held before;
the only writes target the freshly allocated working copy. -/
theorem infer_does_not_mutate_input (h : List PandasObject) (i : Nat)
    (tok : String) (cr : Option String) (rows : List TransferRecord)
    (hread : h[i]? = some (PandasObject.raw rows)) :
    ((inferTeamWalletsHeap h i tok cr).1)[i]? = some (PandasObject.raw rows) := by
  have hlt : i < h.length := by
    by_contra hge
    rw [List.getElem?_eq_none (Nat.le_of_not_lt hge)] at hread
    exact Option.noConfusion hread
  unfold inferTeamWalletsHeap
  rw [hread]
  show ((h ++ [PandasObject.raw rows]).set h.length
      (PandasObject.withNormCols (rows.map addNormalized)))[i]? = _
  rw [List.getElem?_set_ne (by omega), List.getElem?_append_left hlt, hread]

/-- C8 witness: a singleton heap holding a one-record ledger is unchanged
at the input reference by the call. -/
theorem infer_does_not_mutate_input_witness :
    ((inferTeamWalletsHeap [PandasObject.raw [⟨1, "t", some "0xC", some "0xW1", some 2⟩]]
        0 "0xT" (some "0xC")).1)[0]?
      = some (PandasObject.raw [⟨1, "t", some "0xC", some "0xW1", some 2⟩]) :=
  infer_does_not_mutate_input _ 0 _ _ _ (by decide)
